import Mathlib

/-!
Verification of the echo-detection and timing pipeline of the
speed-of-sound measurement program (`scifairgui.py`).

The core functions embedded here are `find_echo_time_ms` (windowed peak
search over a recorded waveform) and `compute_speed_m_per_s` (round-trip
delay to speed conversion).  Floating-point samples and millisecond bounds
are modelled as rationals; all arithmetic of the program on the inputs of
interest is exact, so no verdict depends on rounding of binary floats.
-/

set_option maxHeartbeats 1000000
set_option maxRecDepth 8000

namespace SciFair

/-- Configuration constant `SAMPLE_RATE = 48000` (samples per second). -/
def SAMPLE_RATE : ℕ := 48000

/-- Configuration constant `RECORD_MS = 60`. -/
def RECORD_MS : ℚ := 60

/-- Configuration constant `IGNORE_FIRST_MS = 2`. -/
def IGNORE_FIRST_MS : ℚ := 2

/-- Configuration constant `ECHO_SEARCH_START_MS = 6`. -/
def ECHO_SEARCH_START_MS : ℚ := 6

/-- Configuration constant `ECHO_SEARCH_END_MS = 55`. -/
def ECHO_SEARCH_END_MS : ℚ := 55

/-- Configuration constant `TUBE_DISTANCE_M = 3.0` (one-way distance). -/
def TUBE_DISTANCE_M : ℚ := 3

/-- Python's `int()` applied to a real number: truncation toward zero
(floor for nonnegative arguments, ceiling for negative ones). -/
def py_trunc (q : ℚ) : ℤ :=
  if 0 ≤ q then ⌊q⌋ else ⌈q⌉

/-- The inner helper `ms_to_index` of `find_echo_time_ms`:
`int((ms / 1000.0) * SAMPLE_RATE)`, with the sample rate as a parameter. -/
def ms_to_index (rate : ℕ) (ms : ℚ) : ℤ :=
  py_trunc (ms / 1000 * (rate : ℚ))

/-- The safety clamp `max(0, min(i, len(loud)))` applied to each converted
index, landing in `[0, n]`. -/
def clampIndex (n : ℕ) (i : ℤ) : ℕ :=
  (max 0 (min i (n : ℤ))).toNat

/-- Functional rendering of the in-place slice assignments
`loud[:i1] = 0.0` and `loud[i2:] = 0.0`: entry `k` of the result is `0`
when `k < i1` or `i2 ≤ k`, and the original entry otherwise. -/
def zero_window (i1 i2 : ℕ) (loud : List ℚ) : List ℚ :=
  (List.range loud.length).map fun k =>
    if k < i1 then 0 else if i2 ≤ k then 0 else loud.getD k 0

/-- Recursive model of `np.argmax`, returning the first index attaining the
maximum together with the maximum value, or `none` on the empty list
(where `np.argmax` raises `ValueError`). -/
def argmax_vi : List ℚ → Option (ℕ × ℚ)
  | [] => none
  | a :: rest =>
    match argmax_vi rest with
    | none => some (0, a)
    | some (j, v) => if a < v then some (j + 1, v) else some (0, a)

/-- Model of `int(np.argmax(loud))`: index of the first occurrence of the
maximum, `none` for the empty array (which raises in the source). -/
def np_argmax (l : List ℚ) : Option ℕ :=
  (argmax_vi l).map Prod.fst

/-- The rectified and window-masked amplitude array built inside
`find_echo_time_ms`: `loud = np.abs(wave)` followed by the two
zeroing slice assignments with the clamped window indices. -/
def masked_loud (rate : ℕ) (search_start_ms search_end_ms : ℚ)
    (wave : List ℚ) : List ℚ :=
  let loud := wave.map fun a => |a|
  let i1 := clampIndex loud.length (ms_to_index rate search_start_ms)
  let i2 := clampIndex loud.length (ms_to_index rate search_end_ms)
  zero_window i1 i2 loud

/-- The peak index computed by `find_echo_time_ms`
(`peak_index = int(np.argmax(loud))`), with the module-level configuration
constants turned into parameters.  `none` models the `ValueError` that
`np.argmax` raises on an empty buffer.  The lead-in index `i0` is computed
and clamped exactly as in the source, where it is never used afterwards. -/
def find_echo_peak_index (rate : ℕ)
    (ignore_first_ms search_start_ms search_end_ms : ℚ)
    (wave : List ℚ) : Option ℕ :=
  let loud := wave.map fun a => |a|
  let i0 := clampIndex loud.length (ms_to_index rate ignore_first_ms)
  let i1 := clampIndex loud.length (ms_to_index rate search_start_ms)
  let i2 := clampIndex loud.length (ms_to_index rate search_end_ms)
  np_argmax (zero_window i1 i2 loud)

/-- The return value of `find_echo_time_ms`:
`peak_ms = (peak_index / SAMPLE_RATE) * 1000.0`. -/
def find_echo_time_ms (rate : ℕ)
    (ignore_first_ms search_start_ms search_end_ms : ℚ)
    (wave : List ℚ) : Option ℚ :=
  (find_echo_peak_index rate ignore_first_ms search_start_ms search_end_ms
      wave).map
    fun peak_index => (peak_index : ℚ) / (rate : ℚ) * 1000

/-- Embedding of `compute_speed_m_per_s`, with the global constant
`TUBE_DISTANCE_M` turned into the parameter `one_way_distance_m`:
`t = echo_time_ms / 1000.0; if t <= 0: return 0.0;
return (2.0 * TUBE_DISTANCE_M) / t`. -/
def compute_speed_m_per_s (echo_time_ms one_way_distance_m : ℚ) : ℚ :=
  let t := echo_time_ms / 1000
  if t ≤ 0 then 0 else 2 * one_way_distance_m / t

/-! ### Basic lemmas about the embedding -/

theorem argmax_vi_eq_none_iff (l : List ℚ) : argmax_vi l = none ↔ l = [] := by
  cases l with
  | nil => simp [argmax_vi]
  | cons a rest =>
    rw [argmax_vi]
    cases h : argmax_vi rest with
    | none => simp
    | some jv =>
      obtain ⟨j, v⟩ := jv
      by_cases hav : a < v <;> simp [hav]

theorem argmax_vi_spec (l : List ℚ) :
    ∀ (j : ℕ) (v : ℚ), argmax_vi l = some (j, v) →
      j < l.length ∧ l.getD j 0 = v ∧
        (∀ k, k < l.length → l.getD k 0 ≤ v) ∧
        (∀ k, k < j → l.getD k 0 < v) := by
  induction l with
  | nil => intro j v h; simp [argmax_vi] at h
  | cons a rest ih =>
    intro j v h
    rw [argmax_vi] at h
    cases hrec : argmax_vi rest with
    | none =>
      have hrest : rest = [] := (argmax_vi_eq_none_iff rest).mp hrec
      subst hrest
      rw [hrec] at h
      simp at h
      obtain ⟨hj, hv⟩ := h
      subst hj; subst hv
      refine ⟨by simp, by simp, ?_, ?_⟩
      · intro k hk
        simp at hk
        subst hk
        simp
      · intro k hk; omega
    | some jv =>
      obtain ⟨j0, v0⟩ := jv
      rw [hrec] at h
      obtain ⟨hlen0, hget0, hub0, hfirst0⟩ := ih j0 v0 hrec
      by_cases hav : a < v0
      · simp [hav] at h
        obtain ⟨hj, hv⟩ := h
        subst hj; subst hv
        refine ⟨?_, by simpa using hget0, ?_, ?_⟩
        · simp only [List.length_cons]; omega
        · intro k hk
          cases k with
          | zero => simpa using le_of_lt hav
          | succ k2 =>
            simp only [List.length_cons] at hk
            simpa using hub0 k2 (by omega)
        · intro k hk
          cases k with
          | zero => simpa using hav
          | succ k2 => simpa using hfirst0 k2 (by omega)
      · simp [hav] at h
        obtain ⟨hj, hv⟩ := h
        subst hj; subst hv
        refine ⟨by simp, by simp, ?_, ?_⟩
        · intro k hk
          cases k with
          | zero => simp
          | succ k2 =>
            simp only [List.length_cons] at hk
            simpa using le_trans (hub0 k2 (by omega)) (not_lt.mp hav)
        · intro k hk; omega

theorem np_argmax_of_ne_nil (l : List ℚ) (hl : l ≠ []) :
    ∃ j v, np_argmax l = some j ∧ argmax_vi l = some (j, v) := by
  cases h : argmax_vi l with
  | none => exact absurd ((argmax_vi_eq_none_iff l).mp h) hl
  | some jv =>
    obtain ⟨j, v⟩ := jv
    exact ⟨j, v, by simp [np_argmax, h], rfl⟩

theorem getD_eq_get_of_lt (l : List ℚ) (k : ℕ) (hk : k < l.length) :
    l.getD k 0 = l[k] := by
  rw [List.getD_eq_getElem?_getD, List.getElem?_eq_getElem hk]
  rfl

theorem zero_window_length (i1 i2 : ℕ) (l : List ℚ) :
    (zero_window i1 i2 l).length = l.length := by
  simp [zero_window]

theorem zero_window_getD (i1 i2 : ℕ) (l : List ℚ) (k : ℕ)
    (hk : k < l.length) :
    (zero_window i1 i2 l).getD k 0 =
      if k < i1 then 0 else if i2 ≤ k then 0 else l.getD k 0 := by
  rw [getD_eq_get_of_lt _ _ (by simpa [zero_window_length] using hk)]
  simp only [zero_window, List.getElem_map, List.getElem_range]

theorem getD_map_abs (l : List ℚ) (k : ℕ) (hk : k < l.length) :
    (l.map fun a => |a|).getD k 0 = |l.getD k 0| := by
  rw [getD_eq_get_of_lt _ _ (by simpa using hk), getD_eq_get_of_lt _ _ hk]
  simp

theorem masked_loud_length (rate : ℕ) (s e : ℚ) (wave : List ℚ) :
    (masked_loud rate s e wave).length = wave.length := by
  simp [masked_loud, zero_window_length]

theorem masked_loud_getD (rate : ℕ) (s e : ℚ) (wave : List ℚ) (k : ℕ)
    (hk : k < wave.length) :
    (masked_loud rate s e wave).getD k 0 =
      if k < clampIndex wave.length (ms_to_index rate s) then 0
      else if clampIndex wave.length (ms_to_index rate e) ≤ k then 0
      else |wave.getD k 0| := by
  unfold masked_loud
  rw [zero_window_getD _ _ _ _ (by simpa using hk)]
  rw [getD_map_abs _ _ hk]
  simp [List.length_map]

theorem masked_loud_nonneg (rate : ℕ) (s e : ℚ) (wave : List ℚ) (k : ℕ) :
    0 ≤ (masked_loud rate s e wave).getD k 0 := by
  by_cases hk : k < wave.length
  · rw [masked_loud_getD rate s e wave k hk]
    split
    · exact le_refl 0
    · split
      · exact le_refl 0
      · exact abs_nonneg _
  · rw [List.getD_eq_default]
    rw [masked_loud_length]
    omega

theorem find_echo_peak_index_eq (rate : ℕ) (ig s e : ℚ) (wave : List ℚ) :
    find_echo_peak_index rate ig s e wave =
      np_argmax (masked_loud rate s e wave) := rfl

theorem find_echo_time_ms_eq (rate : ℕ) (ig s e : ℚ) (wave : List ℚ) :
    find_echo_time_ms rate ig s e wave =
      (find_echo_peak_index rate ig s e wave).map
        fun peak_index => (peak_index : ℚ) / (rate : ℚ) * 1000 := rfl

theorem clampIndex_le (n : ℕ) (i : ℤ) : clampIndex n i ≤ n := by
  unfold clampIndex
  omega

theorem lt_of_lt_clampIndex (n : ℕ) (i : ℤ) (k : ℕ)
    (h : k < clampIndex n i) : (k : ℤ) < i ∧ k < n := by
  unfold clampIndex at h
  omega

theorem ms_to_index_of_nonneg (rate : ℕ) (ms : ℚ) (h : 0 ≤ ms) :
    ms_to_index rate ms = ⌊ms / 1000 * (rate : ℚ)⌋ := by
  unfold ms_to_index py_trunc
  rw [if_pos (by positivity)]

theorem time_mono (rate : ℕ) (a b : ℕ) (hab : a ≤ b) :
    (a : ℚ) / (rate : ℚ) * 1000 ≤ (b : ℚ) / (rate : ℚ) * 1000 := by
  have h1 : (a : ℚ) ≤ (b : ℚ) := by exact_mod_cast hab
  rcases Nat.eq_zero_or_pos rate with h | h
  · subst h; simp
  · have hr : (0 : ℚ) < (rate : ℚ) := by exact_mod_cast h
    have h2 : (a : ℚ) / (rate : ℚ) ≤ (b : ℚ) / (rate : ℚ) := by gcongr
    linarith

theorem time_le_of_lt_clamp (rate : ℕ) (hrate : 0 < rate) (e : ℚ)
    (he : 0 ≤ e) (n m : ℕ)
    (hm : m < clampIndex n (ms_to_index rate e)) :
    (m : ℚ) / (rate : ℚ) * 1000 < e := by
  obtain ⟨hmi, _⟩ := lt_of_lt_clampIndex n _ m hm
  rw [ms_to_index_of_nonneg rate e he] at hmi
  have h3 : ((m : ℤ) + 1 : ℤ) ≤ ⌊e / 1000 * (rate : ℚ)⌋ := by omega
  have h4 := Int.le_floor.mp h3
  push_cast at h4
  have h5 : (m : ℚ) * 1000 < e * (rate : ℚ) := by
    have h6 : e / 1000 * (rate : ℚ) = e * (rate : ℚ) / 1000 := by ring
    rw [h6, le_div_iff₀ (by norm_num : (0 : ℚ) < 1000)] at h4
    nlinarith
  have hr : (0 : ℚ) < (rate : ℚ) := by exact_mod_cast hrate
  rw [div_mul_eq_mul_div, div_lt_iff₀ hr]
  exact h5

/-- When the clamped search window contains no sample of positive rectified
amplitude, the masked array is identically zero, so `np.argmax` yields the
first index `0`: the locator reports peak index `0` and echo time `0.0`. -/
theorem find_echo_of_window_zero (rate : ℕ) (ig s e : ℚ) (wave : List ℚ)
    (hw : wave ≠ [])
    (hz : ∀ k, k < clampIndex wave.length (ms_to_index rate e) →
      clampIndex wave.length (ms_to_index rate s) ≤ k →
      |wave.getD k 0| = 0) :
    find_echo_peak_index rate ig s e wave = some 0 ∧
    find_echo_time_ms rate ig s e wave = some 0 := by
  have hwlen : 0 < wave.length := List.length_pos.mpr hw
  have hmlen : (masked_loud rate s e wave).length = wave.length :=
    masked_loud_length rate s e wave
  have hmne : masked_loud rate s e wave ≠ [] := by
    intro hnil
    rw [hnil] at hmlen
    simp at hmlen
    omega
  obtain ⟨j, v, hnp, hvi⟩ := np_argmax_of_ne_nil _ hmne
  obtain ⟨hlen, hget, hub, hfirst⟩ := argmax_vi_spec _ j v hvi
  have hallzero : ∀ k, k < wave.length →
      (masked_loud rate s e wave).getD k 0 = 0 := by
    intro k hk
    rw [masked_loud_getD rate s e wave k hk]
    split
    · rfl
    · split
      · rfl
      · exact hz k (by omega) (by omega)
  have hv0 : v = 0 := by
    rw [← hget]
    exact hallzero j (by omega)
  have hj0 : j = 0 := by
    by_contra hne
    have h0 : (masked_loud rate s e wave).getD 0 0 < v :=
      hfirst 0 (by omega)
    rw [hallzero 0 hwlen, hv0] at h0
    exact lt_irrefl 0 h0
  subst hj0
  refine ⟨by rw [find_echo_peak_index_eq]; exact hnp, ?_⟩
  rw [find_echo_time_ms_eq, find_echo_peak_index_eq, hnp]
  simp

/-- When some sample inside the clamped search window has positive rectified
amplitude, the locator returns an in-window peak index: the first index
attaining the maximum rectified amplitude over the window. -/
theorem find_echo_of_window_pos (rate : ℕ) (ig s e : ℚ) (wave : List ℚ)
    (j : ℕ) (hj2 : j < clampIndex wave.length (ms_to_index rate e))
    (hj1 : clampIndex wave.length (ms_to_index rate s) ≤ j)
    (hpos : 0 < |wave.getD j 0|) :
    ∃ m, find_echo_peak_index rate ig s e wave = some m ∧
      find_echo_time_ms rate ig s e wave =
        some ((m : ℚ) / (rate : ℚ) * 1000) ∧
      clampIndex wave.length (ms_to_index rate s) ≤ m ∧
      m < clampIndex wave.length (ms_to_index rate e) ∧
      (∀ k, k < clampIndex wave.length (ms_to_index rate e) →
        clampIndex wave.length (ms_to_index rate s) ≤ k →
        |wave.getD k 0| ≤ |wave.getD m 0|) ∧
      (∀ k, k < m → clampIndex wave.length (ms_to_index rate s) ≤ k →
        |wave.getD k 0| < |wave.getD m 0|) := by
  have hjlen : j < wave.length :=
    lt_of_le_of_lt (le_refl j) (lt_of_lt_of_le hj2 (clampIndex_le _ _))
  have hw : wave ≠ [] := by
    intro hnil
    rw [hnil] at hjlen
    simp at hjlen
  have hmlen : (masked_loud rate s e wave).length = wave.length :=
    masked_loud_length rate s e wave
  have hmne : masked_loud rate s e wave ≠ [] := by
    intro hnil
    rw [hnil] at hmlen
    simp at hmlen
    omega
  obtain ⟨m, v, hnp, hvi⟩ := np_argmax_of_ne_nil _ hmne
  obtain ⟨hlen, hget, hub, hfirst⟩ := argmax_vi_spec _ m v hvi
  have hmaskj : (masked_loud rate s e wave).getD j 0 = |wave.getD j 0| := by
    rw [masked_loud_getD rate s e wave j hjlen]
    rw [if_neg (by omega), if_neg (by omega)]
  have hvpos : 0 < v := by
    have h := hub j (by omega)
    rw [hmaskj] at h
    exact lt_of_lt_of_le hpos h
  have hmlt : m < wave.length := by omega
  have hmwin : clampIndex wave.length (ms_to_index rate s) ≤ m ∧
      m < clampIndex wave.length (ms_to_index rate e) := by
    by_contra hcon
    have hmask0 : (masked_loud rate s e wave).getD m 0 = 0 := by
      rw [masked_loud_getD rate s e wave m hmlt]
      rcases not_and_or.mp hcon with h | h
      · rw [if_pos (by omega)]
      · rw [if_neg (by omega), if_pos (by omega)]
    rw [hget] at hmask0
    rw [hmask0] at hvpos
    exact lt_irrefl 0 hvpos
  have hmaskm : (masked_loud rate s e wave).getD m 0 = |wave.getD m 0| := by
    rw [masked_loud_getD rate s e wave m hmlt]
    rw [if_neg (by omega), if_neg (by omega)]
  have hvm : v = |wave.getD m 0| := by
    rw [← hget]
    exact hmaskm
  refine ⟨m, by rw [find_echo_peak_index_eq]; exact hnp, ?_, hmwin.1,
    hmwin.2, ?_, ?_⟩
  · rw [find_echo_time_ms_eq, find_echo_peak_index_eq, hnp]
    rfl
  · intro k hk2 hk1
    have hklen : k < wave.length := lt_of_lt_of_le hk2 (clampIndex_le _ _)
    have h := hub k (by omega)
    rw [masked_loud_getD rate s e wave k hklen, if_neg (by omega),
      if_neg (by omega), hvm] at h
    exact h
  · intro k hkm hk1
    have hklen : k < wave.length := by omega
    have h := hfirst k hkm
    rw [masked_loud_getD rate s e wave k hklen, if_neg (by omega),
      if_neg (by omega), hvm] at h
    exact h

theorem ms_to_index_eval (rate : ℕ) (ms : ℚ) (z : ℤ)
    (h0 : 0 ≤ ms) (h : ms / 1000 * (rate : ℚ) = (z : ℚ)) :
    ms_to_index rate ms = z := by
  rw [ms_to_index_of_nonneg rate ms h0, h, Int.floor_intCast]

theorem clamp_ms_eval (n rate : ℕ) (ms : ℚ) (z : ℤ) (m : ℕ)
    (h0 : 0 ≤ ms) (h : ms / 1000 * (rate : ℚ) = (z : ℚ))
    (h2 : clampIndex n z = m) :
    clampIndex n (ms_to_index rate ms) = m := by
  rw [ms_to_index_eval rate ms z h0 h]
  exact h2

theorem replicate_ne_nil_of_pos (n : ℕ) (hn : 0 < n) (a : ℚ) :
    List.replicate n a ≠ [] := by
  intro h
  have h2 := congrArg List.length h
  simp at h2
  omega

theorem getD_replicate_zero (n k : ℕ) :
    (List.replicate n (0 : ℚ)).getD k 0 = 0 := by
  by_cases hk : k < n
  · rw [getD_eq_get_of_lt _ _ (by simpa using hk)]
    simp
  · rw [List.getD_eq_default]
    simpa using not_lt.mp hk

/-! ### Claim theorems -/

/-- C5: for every echo time `t` and one-way distance `d`,
`compute_speed_m_per_s` returns `(2 * d) / (t / 1000)` when `0 < t` and
`0` otherwise; in particular it returns `0` at `t = 0` and at `t = -1` for
every `d > 0`.  The function is total by construction. -/
theorem C5_speed_estimator_formula :
    (∀ t d : ℚ,
      (0 < t → compute_speed_m_per_s t d = 2 * d / (t / 1000)) ∧
      (t ≤ 0 → compute_speed_m_per_s t d = 0)) ∧
    (∀ d : ℚ, 0 < d →
      compute_speed_m_per_s 0 d = 0 ∧ compute_speed_m_per_s (-1) d = 0) := by
  constructor
  · intro t d
    constructor
    · intro ht
      unfold compute_speed_m_per_s
      rw [if_neg (not_le.mpr (div_pos ht (by norm_num)))]
    · intro ht
      unfold compute_speed_m_per_s
      rw [if_pos]
      rw [div_nonpos_iff]
      right
      exact ⟨ht, by norm_num⟩
  · intro d hd
    constructor
    · unfold compute_speed_m_per_s
      norm_num
    · unfold compute_speed_m_per_s
      norm_num

/-- Witness for C5 at `t = 10`, `t = 0`, `t = -1` with `d = 3`. -/
theorem C5_speed_estimator_formula_witness :
    compute_speed_m_per_s 10 3 = 2 * 3 / (10 / 1000) ∧
    compute_speed_m_per_s 0 3 = 0 ∧ compute_speed_m_per_s (-1) 3 = 0 :=
  ⟨(C5_speed_estimator_formula.1 10 3).1 (by norm_num),
   (C5_speed_estimator_formula.2 3 (by norm_num)).1,
   (C5_speed_estimator_formula.2 3 (by norm_num)).2⟩

/-- C7 counterexample: with `d = 3 > 0` and echo times `0 < 1`, the claimed
monotone decrease `estimate(0, 3) ≥ estimate(1, 3)` fails, because the
zero-sentinel value `estimate(0, 3) = 0` is below `estimate(1, 3) = 6000`. -/
theorem C7_counterexample :
    (0 : ℚ) < 3 ∧ (0 : ℚ) < 1 ∧
    ¬ (compute_speed_m_per_s 1 3 ≤ compute_speed_m_per_s 0 3) := by
  refine ⟨by norm_num, by norm_num, ?_⟩
  unfold compute_speed_m_per_s
  norm_num

/-- C7 amended: the speed estimate is monotonically decreasing in the echo
time on positive echo times (for a fixed positive distance), and
monotonically increasing in the distance for a fixed positive echo time.
The restriction to positive `t1` is forced: across the zero-sentinel
(`t ≤ 0`, where the estimate is `0`) the decrease fails. -/
theorem C7_amended (t1 t2 d1 d2 : ℚ) (ht1 : 0 < t1) (hd1 : 0 < d1) :
    (t1 < t2 → compute_speed_m_per_s t2 d1 ≤ compute_speed_m_per_s t1 d1) ∧
    (d1 ≤ d2 → compute_speed_m_per_s t1 d1 ≤ compute_speed_m_per_s t1 d2) := by
  have h1 : (0 : ℚ) < t1 / 1000 := div_pos ht1 (by norm_num)
  constructor
  · intro h12
    have ht2 : (0 : ℚ) < t2 := lt_trans ht1 h12
    have h2 : (0 : ℚ) < t2 / 1000 := div_pos ht2 (by norm_num)
    unfold compute_speed_m_per_s
    rw [if_neg (not_le.mpr h2), if_neg (not_le.mpr h1)]
    gcongr
  · intro hdd
    unfold compute_speed_m_per_s
    rw [if_neg (not_le.mpr h1), if_neg (not_le.mpr h1)]
    gcongr

/-- Witness for C7 at `t1 = 10 < t2 = 20`, `d1 = 3 ≤ d2 = 4`. -/
theorem C7_amended_witness :
    (compute_speed_m_per_s 20 3 ≤ compute_speed_m_per_s 10 3) ∧
    (compute_speed_m_per_s 10 3 ≤ compute_speed_m_per_s 10 4) :=
  ⟨(C7_amended 10 20 3 4 (by norm_num) (by norm_num)).1 (by norm_num),
   (C7_amended 10 20 3 4 (by norm_num) (by norm_num)).2 (by norm_num)⟩

/-- C6 counterexample: the conversion in the source is Python's `int()`
(truncation), not `round`.  At `ms = 1/32` and rate `48000` the product is
`1.5`: `ms_to_index` yields `1` while `round` yields `2`. -/
theorem C6_counterexample :
    ms_to_index 48000 (1 / 32) = 1 ∧
    round ((1 / 32 : ℚ) / 1000 * ((48000 : ℕ) : ℚ)) = 2 ∧
    ms_to_index 48000 (1 / 32) ≠
      round ((1 / 32 : ℚ) / 1000 * ((48000 : ℕ) : ℚ)) := by
  have harg : (1 / 32 : ℚ) / 1000 * ((48000 : ℕ) : ℚ) = 3 / 2 := by
    norm_num
  have h1 : ms_to_index 48000 (1 / 32) = 1 := by
    rw [ms_to_index_of_nonneg _ _ (by norm_num)]
    rw [harg]
    norm_num [Int.floor_eq_iff]
  have h2 : round ((1 / 32 : ℚ) / 1000 * ((48000 : ℕ) : ℚ)) = 2 := by
    rw [harg, round_eq]
    norm_num [Int.floor_eq_iff]
  exact ⟨h1, h2, by rw [h1, h2]; norm_num⟩

/-- C6 amended: each millisecond bound is converted by truncation toward
zero, `index = int(ms/1000 * sample_rate)`, which equals `⌊ms/1000 * rate⌋`
for nonnegative `ms` and agrees with `round` exactly when the product is an
integer (as it is for the program's constants 2, 6 and 55 ms at 48000 Hz);
the converted index is then clamped into `[0, len(wave)]`. -/
theorem C6_amended (rate n : ℕ) (ms : ℚ) (hms : 0 ≤ ms) :
    ms_to_index rate ms = ⌊ms / 1000 * (rate : ℚ)⌋ ∧
    (∀ z : ℤ, ms / 1000 * (rate : ℚ) = (z : ℚ) →
      ms_to_index rate ms = round (ms / 1000 * (rate : ℚ))) ∧
    clampIndex n (ms_to_index rate ms) ≤ n := by
  refine ⟨ms_to_index_of_nonneg rate ms hms, ?_, clampIndex_le _ _⟩
  intro z hz
  rw [ms_to_index_of_nonneg rate ms hms, hz, Int.floor_intCast,
    round_intCast]

/-- Witness for C6 at the program's search-start bound 6 ms, 48000 Hz,
buffer length 2880. -/
theorem C6_amended_witness :
    ms_to_index 48000 6 = ⌊(6 : ℚ) / 1000 * ((48000 : ℕ) : ℚ)⌋ ∧
    (∀ z : ℤ, (6 : ℚ) / 1000 * ((48000 : ℕ) : ℚ) = (z : ℚ) →
      ms_to_index 48000 6 = round ((6 : ℚ) / 1000 * ((48000 : ℕ) : ℚ))) ∧
    clampIndex 2880 (ms_to_index 48000 6) ≤ 2880 :=
  C6_amended 48000 2880 6 (by norm_num)

/-- C10: the locator's output does not depend on the ignore-lead-in
parameter: the lead-in index `i0` is computed and clamped but never used,
so any two values of `IGNORE_FIRST_MS` give identical results for the same
waveform and search bounds. -/
theorem C10_lead_in_independent (rate : ℕ) (ig ig' s e : ℚ)
    (wave : List ℚ) :
    find_echo_time_ms rate ig s e wave =
      find_echo_time_ms rate ig' s e wave ∧
    find_echo_peak_index rate ig s e wave =
      find_echo_peak_index rate ig' s e wave :=
  ⟨rfl, rfl⟩

/-- C1 counterexample: the all-zero waveform of 2880 samples, under the
program's configuration (which satisfies the window invariant
`2 ≤ 6 < 55 ≤ 60`), makes the locator return `0.0`, which is not within
`[search_start_ms, search_end_ms] = [6, 55]`. -/
theorem C1_counterexample :
    find_echo_time_ms SAMPLE_RATE IGNORE_FIRST_MS ECHO_SEARCH_START_MS
      ECHO_SEARCH_END_MS (List.replicate 2880 (0 : ℚ)) = some 0 ∧
    ¬ (ECHO_SEARCH_START_MS ≤ (0 : ℚ)) := by
  constructor
  · exact (find_echo_of_window_zero SAMPLE_RATE IGNORE_FIRST_MS
      ECHO_SEARCH_START_MS ECHO_SEARCH_END_MS (List.replicate 2880 (0 : ℚ))
      (replicate_ne_nil_of_pos 2880 (by norm_num) 0)
      (fun k hk2 hk1 => by rw [getD_replicate_zero]; simp)).2
  · norm_num [ECHO_SEARCH_START_MS]

/-- C1 amended: for every configuration satisfying the window invariant and
every nonempty waveform, the locator is total (no out-of-bounds access: it
returns a peak index strictly below the waveform length) and the returned
echo time either is the `0.0` degenerate fallback (produced whenever the
clamped window holds no positive rectified sample) or lies between the
clamped window-start time and `search_end_ms`. -/
theorem C1_amended (rate : ℕ) (hrate : 0 < rate) (ig s e r : ℚ)
    (hig : 0 ≤ ig) (hs : ig ≤ s) (hse : s < e) (her : e ≤ r)
    (wave : List ℚ) (hw : wave ≠ []) :
    ∃ m, find_echo_peak_index rate ig s e wave = some m ∧
      find_echo_time_ms rate ig s e wave =
        some ((m : ℚ) / (rate : ℚ) * 1000) ∧
      m < wave.length ∧
      ((m : ℚ) / (rate : ℚ) * 1000 = 0 ∨
        ((clampIndex wave.length (ms_to_index rate s) : ℚ) / (rate : ℚ) *
            1000 ≤ (m : ℚ) / (rate : ℚ) * 1000 ∧
          (m : ℚ) / (rate : ℚ) * 1000 ≤ e)) := by
  by_cases hpos : ∃ j, j < clampIndex wave.length (ms_to_index rate e) ∧
      clampIndex wave.length (ms_to_index rate s) ≤ j ∧ 0 < |wave.getD j 0|
  · obtain ⟨j, hj2, hj1, hjpos⟩ := hpos
    obtain ⟨m, hpk, htime, hm1, hm2, _, _⟩ :=
      find_echo_of_window_pos rate ig s e wave j hj2 hj1 hjpos
    refine ⟨m, hpk, htime, lt_of_lt_of_le hm2 (clampIndex_le _ _),
      Or.inr ⟨time_mono rate _ m hm1, ?_⟩⟩
    have he0 : (0 : ℚ) ≤ e := le_of_lt (lt_of_le_of_lt (le_trans hig hs) hse)
    exact le_of_lt (time_le_of_lt_clamp rate hrate e he0 wave.length m hm2)
  · push_neg at hpos
    have hz : ∀ k, k < clampIndex wave.length (ms_to_index rate e) →
        clampIndex wave.length (ms_to_index rate s) ≤ k →
        |wave.getD k 0| = 0 := by
      intro k hk2 hk1
      have h1 := hpos k hk2 hk1
      have h2 := abs_nonneg (wave.getD k 0)
      linarith
    obtain ⟨hpk, htime⟩ := find_echo_of_window_zero rate ig s e wave hw hz
    refine ⟨0, hpk, ?_, List.length_pos.mpr hw, Or.inl (by simp)⟩
    rw [htime]
    simp

/-- Witness for C1 at the program's configuration and the one-sample
waveform `[1]`. -/
theorem C1_amended_witness :
    ∃ m, find_echo_peak_index SAMPLE_RATE IGNORE_FIRST_MS
        ECHO_SEARCH_START_MS ECHO_SEARCH_END_MS [(1 : ℚ)] = some m ∧
      find_echo_time_ms SAMPLE_RATE IGNORE_FIRST_MS ECHO_SEARCH_START_MS
          ECHO_SEARCH_END_MS [(1 : ℚ)] =
        some ((m : ℚ) / (SAMPLE_RATE : ℚ) * 1000) ∧
      m < [(1 : ℚ)].length ∧
      ((m : ℚ) / (SAMPLE_RATE : ℚ) * 1000 = 0 ∨
        ((clampIndex [(1 : ℚ)].length
              (ms_to_index SAMPLE_RATE ECHO_SEARCH_START_MS) : ℚ) /
              (SAMPLE_RATE : ℚ) * 1000 ≤
            (m : ℚ) / (SAMPLE_RATE : ℚ) * 1000 ∧
          (m : ℚ) / (SAMPLE_RATE : ℚ) * 1000 ≤ ECHO_SEARCH_END_MS)) :=
  C1_amended SAMPLE_RATE (by norm_num [SAMPLE_RATE]) IGNORE_FIRST_MS
    ECHO_SEARCH_START_MS ECHO_SEARCH_END_MS RECORD_MS
    (by norm_num [IGNORE_FIRST_MS])
    (by norm_num [IGNORE_FIRST_MS, ECHO_SEARCH_START_MS])
    (by norm_num [ECHO_SEARCH_START_MS, ECHO_SEARCH_END_MS])
    (by norm_num [ECHO_SEARCH_END_MS, RECORD_MS]) [(1 : ℚ)] (by simp)

/-- C2 counterexample: for the 100-sample all-ones waveform the clamped
window is empty (both clamped indices equal 100), and the locator returns
peak index `0` and echo time `0.0`, not the window-start index 100 that
the claim specifies as the fallback. -/
theorem C2_counterexample :
    clampIndex (List.replicate 100 (1 : ℚ)).length
        (ms_to_index SAMPLE_RATE ECHO_SEARCH_START_MS) = 100 ∧
    find_echo_peak_index SAMPLE_RATE IGNORE_FIRST_MS ECHO_SEARCH_START_MS
      ECHO_SEARCH_END_MS (List.replicate 100 (1 : ℚ)) = some 0 ∧
    find_echo_time_ms SAMPLE_RATE IGNORE_FIRST_MS ECHO_SEARCH_START_MS
      ECHO_SEARCH_END_MS (List.replicate 100 (1 : ℚ)) = some 0 ∧
    some (0 : ℕ) ≠ some (100 : ℕ) := by
  have hlen : (List.replicate 100 (1 : ℚ)).length = 100 := by simp
  have hc1 : clampIndex (List.replicate 100 (1 : ℚ)).length
      (ms_to_index SAMPLE_RATE ECHO_SEARCH_START_MS) = 100 := by
    rw [hlen]
    exact clamp_ms_eval 100 SAMPLE_RATE ECHO_SEARCH_START_MS 288 100
      (by norm_num [ECHO_SEARCH_START_MS])
      (by norm_num [SAMPLE_RATE, ECHO_SEARCH_START_MS]) (by decide)
  have hc2 : clampIndex (List.replicate 100 (1 : ℚ)).length
      (ms_to_index SAMPLE_RATE ECHO_SEARCH_END_MS) = 100 := by
    rw [hlen]
    exact clamp_ms_eval 100 SAMPLE_RATE ECHO_SEARCH_END_MS 2640 100
      (by norm_num [ECHO_SEARCH_END_MS])
      (by norm_num [SAMPLE_RATE, ECHO_SEARCH_END_MS]) (by decide)
  have hz : ∀ k, k < clampIndex (List.replicate 100 (1 : ℚ)).length
        (ms_to_index SAMPLE_RATE ECHO_SEARCH_END_MS) →
      clampIndex (List.replicate 100 (1 : ℚ)).length
        (ms_to_index SAMPLE_RATE ECHO_SEARCH_START_MS) ≤ k →
      |(List.replicate 100 (1 : ℚ)).getD k 0| = 0 := by
    intro k hk2 hk1
    rw [hc2] at hk2
    rw [hc1] at hk1
    omega
  obtain ⟨hpk, htime⟩ := find_echo_of_window_zero SAMPLE_RATE
    IGNORE_FIRST_MS ECHO_SEARCH_START_MS ECHO_SEARCH_END_MS
    (List.replicate 100 (1 : ℚ)) (replicate_ne_nil_of_pos 100 (by norm_num) 1) hz
  exact ⟨hc1, hpk, htime, by simp⟩

/-- C2 amended: for every nonempty waveform whose clamped search window is
empty (clamped end index at or below clamped start index, which covers a
start index at or past the buffer length), the locator returns echo time
`0.0` with peak index `0` — the first index of the fully zeroed buffer —
rather than the window-start index; and the empty waveform is not covered
by the fallback: there `np.argmax` raises (modelled as `none`). -/
theorem C2_amended (rate : ℕ) (ig s e : ℚ) (wave : List ℚ)
    (hw : wave ≠ [])
    (hempty : clampIndex wave.length (ms_to_index rate e) ≤
      clampIndex wave.length (ms_to_index rate s)) :
    find_echo_peak_index rate ig s e wave = some 0 ∧
    find_echo_time_ms rate ig s e wave = some 0 ∧
    find_echo_peak_index rate ig s e ([] : List ℚ) = none ∧
    find_echo_time_ms rate ig s e ([] : List ℚ) = none := by
  have hz : ∀ k, k < clampIndex wave.length (ms_to_index rate e) →
      clampIndex wave.length (ms_to_index rate s) ≤ k →
      |wave.getD k 0| = 0 := by
    intro k hk2 hk1
    omega
  obtain ⟨hpk, htime⟩ := find_echo_of_window_zero rate ig s e wave hw hz
  exact ⟨hpk, htime, rfl, rfl⟩

/-- Witness for C2 with the three-sample waveform `[1, 2, 3]`, whose
clamped window `[3, 3)` is empty. -/
theorem C2_amended_witness :
    find_echo_peak_index SAMPLE_RATE IGNORE_FIRST_MS ECHO_SEARCH_START_MS
      ECHO_SEARCH_END_MS [(1 : ℚ), 2, 3] = some 0 ∧
    find_echo_time_ms SAMPLE_RATE IGNORE_FIRST_MS ECHO_SEARCH_START_MS
      ECHO_SEARCH_END_MS [(1 : ℚ), 2, 3] = some 0 ∧
    find_echo_peak_index SAMPLE_RATE IGNORE_FIRST_MS ECHO_SEARCH_START_MS
      ECHO_SEARCH_END_MS ([] : List ℚ) = none ∧
    find_echo_time_ms SAMPLE_RATE IGNORE_FIRST_MS ECHO_SEARCH_START_MS
      ECHO_SEARCH_END_MS ([] : List ℚ) = none :=
  C2_amended SAMPLE_RATE IGNORE_FIRST_MS ECHO_SEARCH_START_MS
    ECHO_SEARCH_END_MS [(1 : ℚ), 2, 3] (by simp)
    (by
      have h1 : clampIndex ([(1 : ℚ), 2, 3]).length
          (ms_to_index SAMPLE_RATE ECHO_SEARCH_END_MS) = 3 :=
        clamp_ms_eval 3 SAMPLE_RATE ECHO_SEARCH_END_MS 2640 3
          (by norm_num [ECHO_SEARCH_END_MS])
          (by norm_num [SAMPLE_RATE, ECHO_SEARCH_END_MS]) (by decide)
      have h2 : clampIndex ([(1 : ℚ), 2, 3]).length
          (ms_to_index SAMPLE_RATE ECHO_SEARCH_START_MS) = 3 :=
        clamp_ms_eval 3 SAMPLE_RATE ECHO_SEARCH_START_MS 288 3
          (by norm_num [ECHO_SEARCH_START_MS])
          (by norm_num [SAMPLE_RATE, ECHO_SEARCH_START_MS]) (by decide)
      rw [h1, h2])

/-- C3 counterexample: for the all-zero 2880-sample waveform the locator
returns echo time `0.0`, while the window-start time is
`288 / 48000 * 1000 = 6` ms — the claim that the window start is returned
fails on the code. -/
theorem C3_counterexample :
    find_echo_time_ms SAMPLE_RATE IGNORE_FIRST_MS ECHO_SEARCH_START_MS
      ECHO_SEARCH_END_MS (List.replicate 2880 (0 : ℚ)) = some 0 ∧
    (clampIndex (List.replicate 2880 (0 : ℚ)).length
          (ms_to_index SAMPLE_RATE ECHO_SEARCH_START_MS) : ℚ) /
        (SAMPLE_RATE : ℚ) * 1000 = 6 ∧
    (0 : ℚ) ≠ 6 := by
  refine ⟨(find_echo_of_window_zero SAMPLE_RATE IGNORE_FIRST_MS
      ECHO_SEARCH_START_MS ECHO_SEARCH_END_MS (List.replicate 2880 (0 : ℚ))
      (replicate_ne_nil_of_pos 2880 (by norm_num) 0)
      (fun k hk2 hk1 => by rw [getD_replicate_zero]; simp)).2, ?_, by norm_num⟩
  have hc1 : clampIndex (List.replicate 2880 (0 : ℚ)).length
      (ms_to_index SAMPLE_RATE ECHO_SEARCH_START_MS) = 288 := by
    rw [List.length_replicate]
    exact clamp_ms_eval 2880 SAMPLE_RATE ECHO_SEARCH_START_MS 288 288
      (by norm_num [ECHO_SEARCH_START_MS])
      (by norm_num [SAMPLE_RATE, ECHO_SEARCH_START_MS]) (by decide)
  rw [hc1]
  norm_num [SAMPLE_RATE]

/-- C3 amended: for every nonempty waveform whose rectified amplitude is
zero everywhere, the locator deterministically returns peak index `0` and
echo time `0.0` (the first index of the all-zero rectified buffer), not
the window-start index/time, and does not raise. -/
theorem C3_amended (rate : ℕ) (ig s e : ℚ) (wave : List ℚ)
    (hw : wave ≠ []) (hzero : ∀ a ∈ wave, |a| = 0) :
    find_echo_peak_index rate ig s e wave = some 0 ∧
    find_echo_time_ms rate ig s e wave = some 0 := by
  apply find_echo_of_window_zero rate ig s e wave hw
  intro k hk2 hk1
  have hklen : k < wave.length :=
    lt_of_lt_of_le hk2 (clampIndex_le _ _)
  rw [getD_eq_get_of_lt wave k hklen]
  exact hzero _ (wave.getElem_mem hklen)

/-- Witness for C3 at the all-zero three-sample waveform. -/
theorem C3_amended_witness :
    find_echo_peak_index SAMPLE_RATE IGNORE_FIRST_MS ECHO_SEARCH_START_MS
      ECHO_SEARCH_END_MS [(0 : ℚ), 0, 0] = some 0 ∧
    find_echo_time_ms SAMPLE_RATE IGNORE_FIRST_MS ECHO_SEARCH_START_MS
      ECHO_SEARCH_END_MS [(0 : ℚ), 0, 0] = some 0 :=
  C3_amended SAMPLE_RATE IGNORE_FIRST_MS ECHO_SEARCH_START_MS
    ECHO_SEARCH_END_MS [(0 : ℚ), 0, 0] (by simp) (by
      intro a ha
      simp at ha
      rw [ha]
      simp)

/-- The synthetic C4 test waveform: 2880 samples, a single unit-amplitude
impulse at sample index 480 (10 ms at 48000 Hz), zero elsewhere. -/
def impulse_wave_2880 : List ℚ :=
  (List.range 2880).map fun i => if i = 480 then 1 else 0

theorem impulse_wave_2880_length : impulse_wave_2880.length = 2880 := by
  simp [impulse_wave_2880]

theorem impulse_wave_2880_getD (k : ℕ) (hk : k < 2880) :
    impulse_wave_2880.getD k 0 = if k = 480 then 1 else 0 := by
  rw [getD_eq_get_of_lt _ k (by rw [impulse_wave_2880_length]; exact hk)]
  simp [impulse_wave_2880]

/-- C4: on the synthetic 2880-sample waveform with a unit impulse at index
480 and the program's window `[6 ms, 55 ms]` at 48000 Hz, the locator
returns exactly 10.0 ms, and the speed estimator at 10 ms with one-way
distance 3.0 m returns exactly 600.0 m/s. -/
theorem C4_synthetic_impulse :
    find_echo_time_ms SAMPLE_RATE IGNORE_FIRST_MS ECHO_SEARCH_START_MS
      ECHO_SEARCH_END_MS impulse_wave_2880 = some 10 ∧
    compute_speed_m_per_s 10 TUBE_DISTANCE_M = 600 := by
  constructor
  · have hc1 : clampIndex impulse_wave_2880.length
        (ms_to_index SAMPLE_RATE ECHO_SEARCH_START_MS) = 288 := by
      rw [impulse_wave_2880_length]
      exact clamp_ms_eval 2880 SAMPLE_RATE ECHO_SEARCH_START_MS 288 288
        (by norm_num [ECHO_SEARCH_START_MS])
        (by norm_num [SAMPLE_RATE, ECHO_SEARCH_START_MS]) (by decide)
    have hc2 : clampIndex impulse_wave_2880.length
        (ms_to_index SAMPLE_RATE ECHO_SEARCH_END_MS) = 2640 := by
      rw [impulse_wave_2880_length]
      exact clamp_ms_eval 2880 SAMPLE_RATE ECHO_SEARCH_END_MS 2640 2640
        (by norm_num [ECHO_SEARCH_END_MS])
        (by norm_num [SAMPLE_RATE, ECHO_SEARCH_END_MS]) (by decide)
    obtain ⟨m, hpk, htime, hm1, hm2, hub, _⟩ :=
      find_echo_of_window_pos SAMPLE_RATE IGNORE_FIRST_MS
        ECHO_SEARCH_START_MS ECHO_SEARCH_END_MS impulse_wave_2880 480
        (by rw [hc2]; norm_num) (by rw [hc1]; norm_num)
        (by rw [impulse_wave_2880_getD 480 (by norm_num)]; norm_num)
    have hmlen : m < 2880 := by
      rw [hc2] at hm2
      omega
    have hmax := hub 480 (by rw [hc2]; norm_num) (by rw [hc1]; norm_num)
    rw [impulse_wave_2880_getD 480 (by norm_num),
      impulse_wave_2880_getD m hmlen, if_pos rfl] at hmax
    have hm480 : m = 480 := by
      by_contra hne
      rw [if_neg hne] at hmax
      norm_num at hmax
    subst hm480
    rw [htime]
    norm_num [SAMPLE_RATE]
  · unfold compute_speed_m_per_s
    norm_num [TUBE_DISTANCE_M]

/-- C8 counterexample: for a waveform whose only nonzero sample sits at
index 0 — strictly before the clamped window start 288 — the locator
returns echo time `0.0`, which is exactly that sample's timestamp
`0 / 48000 * 1000`, contradicting the claim that the out-of-window
sample's timestamp is never returned. -/
theorem C8_counterexample :
    0 < clampIndex ((1 : ℚ) :: List.replicate 299 0).length
        (ms_to_index SAMPLE_RATE ECHO_SEARCH_START_MS) ∧
    find_echo_time_ms SAMPLE_RATE IGNORE_FIRST_MS ECHO_SEARCH_START_MS
      ECHO_SEARCH_END_MS ((1 : ℚ) :: List.replicate 299 0) =
      some ((0 : ℚ) / (SAMPLE_RATE : ℚ) * 1000) := by
  have hlen : ((1 : ℚ) :: List.replicate 299 0).length = 300 := by simp
  have hc1 : clampIndex ((1 : ℚ) :: List.replicate 299 0).length
      (ms_to_index SAMPLE_RATE ECHO_SEARCH_START_MS) = 288 := by
    rw [hlen]
    exact clamp_ms_eval 300 SAMPLE_RATE ECHO_SEARCH_START_MS 288 288
      (by norm_num [ECHO_SEARCH_START_MS])
      (by norm_num [SAMPLE_RATE, ECHO_SEARCH_START_MS]) (by decide)
  refine ⟨by rw [hc1]; norm_num, ?_⟩
  have hz : ∀ k, k < clampIndex ((1 : ℚ) :: List.replicate 299 0).length
        (ms_to_index SAMPLE_RATE ECHO_SEARCH_END_MS) →
      clampIndex ((1 : ℚ) :: List.replicate 299 0).length
        (ms_to_index SAMPLE_RATE ECHO_SEARCH_START_MS) ≤ k →
      |((1 : ℚ) :: List.replicate 299 0).getD k 0| = 0 := by
    intro k hk2 hk1
    rw [hc1] at hk1
    obtain ⟨k2, rfl⟩ : ∃ k2, k = k2 + 1 := ⟨k - 1, by omega⟩
    rw [List.getD_cons_succ, getD_replicate_zero]
    simp
  obtain ⟨hpk, htime⟩ := find_echo_of_window_zero SAMPLE_RATE
    IGNORE_FIRST_MS ECHO_SEARCH_START_MS ECHO_SEARCH_END_MS
    ((1 : ℚ) :: List.replicate 299 0) (List.cons_ne_nil _ _) hz
  rw [htime]
  simp

/-- C8 amended: whenever every sample other than a single index `k` is
zero and `k` lies strictly before the clamped window start, the locator
returns the degenerate fallback — peak index `0` and echo time `0.0`; for
`k > 0` (with a positive sample rate) this differs from the sample's own
timestamp `k / rate * 1000`, while for `k = 0` the fallback numerically
coincides with that timestamp, which is what forces the amendment. -/
theorem C8_amended (rate : ℕ) (hrate : 0 < rate) (ig s e : ℚ)
    (wave : List ℚ) (k : ℕ) (hk : k < wave.length)
    (honly : ∀ j, j < wave.length → j ≠ k → wave.getD j 0 = 0)
    (hbefore : k < clampIndex wave.length (ms_to_index rate s)) :
    find_echo_peak_index rate ig s e wave = some 0 ∧
    find_echo_time_ms rate ig s e wave = some 0 ∧
    (0 < k →
      find_echo_time_ms rate ig s e wave ≠
        some ((k : ℚ) / (rate : ℚ) * 1000)) := by
  have hw : wave ≠ [] := List.length_pos.mp (by omega)
  have hz : ∀ j, j < clampIndex wave.length (ms_to_index rate e) →
      clampIndex wave.length (ms_to_index rate s) ≤ j →
      |wave.getD j 0| = 0 := by
    intro j hj2 hj1
    have hjlen : j < wave.length :=
      lt_of_lt_of_le hj2 (clampIndex_le _ _)
    rw [honly j hjlen (by omega)]
    simp
  obtain ⟨hpk, htime⟩ := find_echo_of_window_zero rate ig s e wave hw hz
  refine ⟨hpk, htime, ?_⟩
  intro hkpos
  rw [htime]
  intro hcon
  have h1 : (k : ℚ) / (rate : ℚ) * 1000 = 0 := by
    injection hcon with h
    exact h.symm
  have hr : (0 : ℚ) < (rate : ℚ) := by exact_mod_cast hrate
  have hkq : (0 : ℚ) < (k : ℚ) := by exact_mod_cast hkpos
  have h2 : (0 : ℚ) < (k : ℚ) / (rate : ℚ) * 1000 := by positivity
  linarith

/-- A 300-sample waveform whose only nonzero sample (value 1) sits at
index 5, well inside the ignored region before the 288-sample window
start. -/
def offset_impulse_wave : List ℚ :=
  List.replicate 5 0 ++ ((1 : ℚ) :: List.replicate 294 0)

/-- Witness for C8 with the impulse at index 5 (timestamp 5/48000*1000,
never returned since the locator falls back to `0.0`). -/
theorem C8_amended_witness :
    find_echo_peak_index SAMPLE_RATE IGNORE_FIRST_MS ECHO_SEARCH_START_MS
      ECHO_SEARCH_END_MS offset_impulse_wave = some 0 ∧
    find_echo_time_ms SAMPLE_RATE IGNORE_FIRST_MS ECHO_SEARCH_START_MS
      ECHO_SEARCH_END_MS offset_impulse_wave = some 0 ∧
    (0 < 5 →
      find_echo_time_ms SAMPLE_RATE IGNORE_FIRST_MS ECHO_SEARCH_START_MS
        ECHO_SEARCH_END_MS offset_impulse_wave ≠
        some (((5 : ℕ) : ℚ) / (SAMPLE_RATE : ℚ) * 1000)) :=
  C8_amended SAMPLE_RATE (by norm_num [SAMPLE_RATE]) IGNORE_FIRST_MS
    ECHO_SEARCH_START_MS ECHO_SEARCH_END_MS offset_impulse_wave 5
    (by decide) (by decide)
    (by
      have hlen : offset_impulse_wave.length = 300 := by decide
      rw [hlen, ms_to_index_eval SAMPLE_RATE ECHO_SEARCH_START_MS 288
        (by norm_num [ECHO_SEARCH_START_MS])
        (by norm_num [SAMPLE_RATE, ECHO_SEARCH_START_MS])]
      decide)

/-- C9 counterexample: in the all-zero 400-sample waveform, every sample
of the clamped window `[288, 400)` shares the maximum rectified amplitude
`0` (a tie), whose lowest tying window index is 288; yet the locator
returns peak index `0`, which is not a window index at all. -/
theorem C9_counterexample :
    find_echo_peak_index SAMPLE_RATE IGNORE_FIRST_MS ECHO_SEARCH_START_MS
      ECHO_SEARCH_END_MS (List.replicate 400 (0 : ℚ)) = some 0 ∧
    clampIndex (List.replicate 400 (0 : ℚ)).length
        (ms_to_index SAMPLE_RATE ECHO_SEARCH_START_MS) = 288 ∧
    |(List.replicate 400 (0 : ℚ)).getD 288 0| =
      |(List.replicate 400 (0 : ℚ)).getD 289 0| ∧
    (0 : ℕ) < 288 := by
  have hc1 : clampIndex (List.replicate 400 (0 : ℚ)).length
      (ms_to_index SAMPLE_RATE ECHO_SEARCH_START_MS) = 288 := by
    rw [List.length_replicate]
    exact clamp_ms_eval 400 SAMPLE_RATE ECHO_SEARCH_START_MS 288 288
      (by norm_num [ECHO_SEARCH_START_MS])
      (by norm_num [SAMPLE_RATE, ECHO_SEARCH_START_MS]) (by decide)
  refine ⟨?_, hc1, by rw [getD_replicate_zero, getD_replicate_zero],
    by norm_num⟩
  exact (find_echo_of_window_zero SAMPLE_RATE IGNORE_FIRST_MS
    ECHO_SEARCH_START_MS ECHO_SEARCH_END_MS (List.replicate 400 (0 : ℚ))
    (replicate_ne_nil_of_pos 400 (by norm_num) 0)
    (fun k hk2 hk1 => by rw [getD_replicate_zero]; simp)).1

/-- C9 amended: when two window indices `i < j` tie for the window maximum
and that maximum is positive, the locator returns the lowest window index
attaining it: an index `m ≤ i` in the window whose amplitude equals the
maximum, with every earlier window index strictly smaller.  The
positivity restriction is forced: when the shared window maximum is `0`
the code returns index `0`, which may lie outside the window. -/
theorem C9_amended (rate : ℕ) (ig s e : ℚ) (wave : List ℚ) (i j : ℕ)
    (hij : i < j) (hjw : j < clampIndex wave.length (ms_to_index rate e))
    (hiw : clampIndex wave.length (ms_to_index rate s) ≤ i)
    (htie : |wave.getD j 0| = |wave.getD i 0|)
    (hmax : ∀ k, k < clampIndex wave.length (ms_to_index rate e) →
      clampIndex wave.length (ms_to_index rate s) ≤ k →
      |wave.getD k 0| ≤ |wave.getD i 0|)
    (hpos : 0 < |wave.getD i 0|) :
    ∃ m, find_echo_peak_index rate ig s e wave = some m ∧
      clampIndex wave.length (ms_to_index rate s) ≤ m ∧ m ≤ i ∧
      |wave.getD m 0| = |wave.getD i 0| ∧
      ∀ k, k < m → clampIndex wave.length (ms_to_index rate s) ≤ k →
        |wave.getD k 0| < |wave.getD i 0| := by
  obtain ⟨m, hpk, _, hm1, hm2, hub, hfirst⟩ :=
    find_echo_of_window_pos rate ig s e wave i (lt_trans hij hjw) hiw hpos
  have hile : |wave.getD i 0| ≤ |wave.getD m 0| :=
    hub i (lt_trans hij hjw) hiw
  have hmle : |wave.getD m 0| ≤ |wave.getD i 0| := hmax m hm2 hm1
  have heq : |wave.getD m 0| = |wave.getD i 0| := le_antisymm hmle hile
  have hmi : m ≤ i := by
    by_contra hgt
    have h := hfirst i (by omega) hiw
    rw [heq] at h
    exact lt_irrefl _ h
  refine ⟨m, hpk, hm1, hmi, heq, ?_⟩
  intro k hkm hk1
  have h := hfirst k hkm hk1
  rw [heq] at h
  exact h

/-- A 300-sample waveform with two tying unit impulses inside the search
window, at indices 290 and 295. -/
def tie_wave : List ℚ :=
  List.replicate 290 0 ++ ((1 : ℚ) :: List.replicate 4 0) ++
    ((1 : ℚ) :: List.replicate 4 0)

/-- Witness for C9 on the two-impulse tie at indices 290 and 295. -/
theorem C9_amended_witness :
    ∃ m, find_echo_peak_index SAMPLE_RATE IGNORE_FIRST_MS
        ECHO_SEARCH_START_MS ECHO_SEARCH_END_MS tie_wave = some m ∧
      clampIndex tie_wave.length
          (ms_to_index SAMPLE_RATE ECHO_SEARCH_START_MS) ≤ m ∧
      m ≤ 290 ∧
      |tie_wave.getD m 0| = |tie_wave.getD 290 0| ∧
      ∀ k, k < m → clampIndex tie_wave.length
          (ms_to_index SAMPLE_RATE ECHO_SEARCH_START_MS) ≤ k →
        |tie_wave.getD k 0| < |tie_wave.getD 290 0| := by
  have hlen : tie_wave.length = 300 := by decide
  have hc1 : clampIndex tie_wave.length
      (ms_to_index SAMPLE_RATE ECHO_SEARCH_START_MS) = 288 := by
    rw [hlen]
    exact clamp_ms_eval 300 SAMPLE_RATE ECHO_SEARCH_START_MS 288 288
      (by norm_num [ECHO_SEARCH_START_MS])
      (by norm_num [SAMPLE_RATE, ECHO_SEARCH_START_MS]) (by decide)
  have hc2 : clampIndex tie_wave.length
      (ms_to_index SAMPLE_RATE ECHO_SEARCH_END_MS) = 300 := by
    rw [hlen]
    exact clamp_ms_eval 300 SAMPLE_RATE ECHO_SEARCH_END_MS 2640 300
      (by norm_num [ECHO_SEARCH_END_MS])
      (by norm_num [SAMPLE_RATE, ECHO_SEARCH_END_MS]) (by decide)
  exact C9_amended SAMPLE_RATE IGNORE_FIRST_MS ECHO_SEARCH_START_MS
    ECHO_SEARCH_END_MS tie_wave 290 295 (by norm_num)
    (by rw [hc2]; norm_num) (by rw [hc1]; norm_num) (by decide)
    (by rw [hc2, hc1]; decide) (by decide)

end SciFair
